import Mathlib

/-!
# Uninstall orchestrator of the Cutefish daemon (`src/appmanager.cpp`)

A shallow embedding of `AppManager`: the object state is a record, every member
function is a state transformer, and the Qt signals that drive it (`finished`,
`errorOccurred`, the D-Bus call `uninstall`) are events delivered to the slot the
source connects them to.

Conventions of the embedding.

* A `QProcess*` is the index of the process among the children of the
  `AppManager` (every process is created with `new QProcess(this)`).
* A `QString` is a Lean `String`; `QString::split`, `QString::trimmed` and
  `QChar::isSpace` follow the Qt documentation.
* `notifyUninstalling`, `notifyUninstallFailure`, `notifyUninstallSuccess` record
  the notification they request (kind and body text); the D-Bus payload around
  it is constant.
* The events are not restricted to the order Qt emits them in: every statement
  about all states or all runs also covers the runs Qt can produce.
* `destructor` is the body of `~AppManager`.
-/

namespace AppManager

/-! ## Qt strings -/

/-- Qt's `QChar::isSpace`: the ASCII white space `\t \n \v \f \r` and space, NEL,
no-break space, and the Unicode separator categories Zs, Zl and Zp. -/
def isSpace (c : Char) : Bool :=
  let u := c.toNat
  u == 0x20 || (0x09 ≤ u && u ≤ 0x0d) || u == 0x85 || u == 0xa0 || u == 0x1680
    || (0x2000 ≤ u && u ≤ 0x200a) || u == 0x2028 || u == 0x2029 || u == 0x202f
    || u == 0x205f || u == 0x3000

/-- Characters of `QString::trimmed`: white space removed from both ends. -/
def trimmedChars (l : List Char) : List Char :=
  ((l.dropWhile isSpace).reverse.dropWhile isSpace).reverse

/-- Characters of `QString::split(sep)` with the default `KeepEmptyParts`: the
pieces between the occurrences of `sep`; a string without `sep` is one piece. -/
def splitChars (sep : Char) : List Char → List (List Char)
  | [] => [[]]
  | c :: cs =>
    if c = sep then [] :: splitChars sep cs
    else
      match splitChars sep cs with
      | [] => [[c]]
      | piece :: pieces => (c :: piece) :: pieces

/-- The call `QString::split(sep)`. -/
def split (s : String) (sep : Char) : List String :=
  (splitChars sep s.data).map String.mk

/-- The call `QList::first()`; the list `split` returns is never empty. -/
def first (l : List String) : String :=
  l.headD ""

/-- The call `QString::trimmed()`. -/
def trimmed (s : String) : String :=
  String.mk (trimmedChars s.data)

/-- The call `QString::isEmpty()`. -/
def isEmpty (s : String) : Bool :=
  s.data.isEmpty

/-! ## Qt processes -/

/-- The enum `QProcess::ExitStatus`. -/
inductive ExitStatus where
  | NormalExit
  | CrashExit
  deriving DecidableEq, Repr

/-- The enum `QProcess::ProcessError`. -/
inductive ProcessError where
  | FailedToStart
  | Crashed
  | Timedout
  | WriteError
  | ReadError
  | UnknownError
  deriving DecidableEq, Repr

/-- Whether the operating-system process behind a `QProcess` is alive
(`QProcess::state()`, with `Starting` and `Running` taken together). -/
inductive ProcessState where
  | NotRunning
  | Running
  deriving DecidableEq, Repr

/-- The slot of `AppManager` a process's `finished` signal is connected to. -/
inductive FinishedSlot where
  | onPackageNameResolved
  | onUninstallFinished
  | onAutoRemoveFinished
  deriving DecidableEq, Repr

/-- A `QProcess` object owned by the `AppManager`. Its `errorOccurred` signal is
connected to `onProcessError` at every creation site, so only the `finished`
connection is recorded. -/
structure QProcess where
  program : String
  arguments : List String
  finishedSlot : Option FinishedSlot
  state : ProcessState
  standardOutput : String
  deleteLater : Bool
  deriving DecidableEq, Repr

namespace QProcess

/-- The expression `new QProcess(this)`. -/
def new : QProcess :=
  { program := "", arguments := [], finishedSlot := none, state := .NotRunning,
    standardOutput := "", deleteLater := false }

def setProgram (p : QProcess) (program : String) : QProcess :=
  { p with program := program }

def setArguments (p : QProcess) (arguments : List String) : QProcess :=
  { p with arguments := arguments }

/-- The call `connect(process, &QProcess::finished, this, slot)`. -/
def connectFinished (p : QProcess) (slot : FinishedSlot) : QProcess :=
  { p with finishedSlot := some slot }

/-- The call `QProcess::start()`: the command is launched. -/
def start (p : QProcess) : QProcess :=
  { p with state := .Running }

/-- The call `QProcess::kill()`: the process is terminated; no effect on one that
is not running. -/
def kill (p : QProcess) : QProcess :=
  { p with state := .NotRunning }

/-- The command line a process was given. -/
def command (p : QProcess) : String × List String :=
  (p.program, p.arguments)

end QProcess

/-! ## The orchestrator -/

/-- A request to the notification service: which of the three notify functions
was called, and the package name passed as body text. -/
inductive Notification where
  | Uninstalling (packageName : String)
  | Failure (packageName : String)
  | Success (packageName : String)
  deriving DecidableEq, Repr

/-- State of an `AppManager` object: the member `m_currentProcess`, the
`QProcess` children created so far (in creation order), and the notifications
requested so far (oldest first). -/
structure State where
  m_currentProcess : Option Nat
  children : List QProcess
  notifications : List Notification
  deriving DecidableEq, Repr

/-- State after the constructor: `m_currentProcess(nullptr)`, no child. -/
def init : State :=
  { m_currentProcess := none, children := [], notifications := [] }

/-- Apply `f` to the element at position `n`, if there is one. -/
def modifyNth (f : QProcess → QProcess) : Nat → List QProcess → List QProcess
  | _, [] => []
  | 0, p :: ps => f p :: ps
  | n + 1, p :: ps => p :: modifyNth f n ps

/-- Apply `f` to the child process `pid` points to. -/
def modifyChild (s : State) (pid : Nat) (f : QProcess → QProcess) : State :=
  { s with children := modifyNth f pid s.children }

/-- The call `process->deleteLater()`. -/
def deleteLater (s : State) (pid : Nat) : State :=
  modifyChild s pid (fun p => { p with deleteLater := true })

/-- The call `process->readAllStandardOutput()`, decoded by `QString::fromUtf8`:
returns what the process wrote and empties its buffer. -/
def readAllStandardOutput (s : State) (pid : Nat) : String × State :=
  ((s.children[pid]?.map (fun p => p.standardOutput)).getD "",
    modifyChild s pid (fun p => { p with standardOutput := "" }))

/-- Add a freshly created child process; returns the pointer to it. -/
def addChild (s : State) (p : QProcess) : Nat × State :=
  (s.children.length, { s with children := s.children ++ [p] })

def notifyUninstalling (s : State) (packageName : String) : State :=
  { s with notifications := s.notifications ++ [.Uninstalling packageName] }

def notifyUninstallFailure (s : State) (packageName : String) : State :=
  { s with notifications := s.notifications ++ [.Failure packageName] }

def cleanupProcess (s : State) : State :=
  match s.m_currentProcess with
  | some pid => { deleteLater s pid with m_currentProcess := none }
  | none => s

def notifyUninstallSuccess (s : State) (packageName : String) : State :=
  cleanupProcess { s with notifications := s.notifications ++ [.Success packageName] }

def getPackageNameFromFile (s : State) (filePath : String) : State :=
  let process := ((QProcess.new.setProgram "dpkg").setArguments ["-S", filePath])
  let process := process.connectFinished .onPackageNameResolved
  (addChild s process.start).2

def uninstall (s : State) (content : String) : State :=
  getPackageNameFromFile s content

def startUninstall (s : State) (packageName : String) : State :=
  let s := notifyUninstalling s packageName
  let process := (QProcess.new.setProgram "pkexec").setArguments
    ["apt", "remove", "--purge", "-y", packageName]
  let process := process.connectFinished .onUninstallFinished
  let (pid, s) := addChild s process.start
  { s with m_currentProcess := some pid }

def onPackageNameResolved (s : State) (sender : Option Nat) (exitCode : Int)
    (exitStatus : ExitStatus) : State :=
  match sender with
  | none => s
  | some process =>
    let (packageName, s) :=
      if exitStatus = .NormalExit ∧ exitCode = 0 then
        let (outputStr, s) := readAllStandardOutput s process
        (trimmed (first (split outputStr ':')), s)
      else ("", s)
    let s := deleteLater s process
    if !isEmpty packageName then startUninstall s packageName
    else notifyUninstallFailure s packageName

def runAutoRemove (s : State) : State :=
  let process := (QProcess.new.setProgram "pkexec").setArguments ["apt", "autoremove", "-y"]
  let process := process.connectFinished .onAutoRemoveFinished
  (addChild s process.start).2

def onUninstallFinished (s : State) (exitCode : Int) (exitStatus : ExitStatus) : State :=
  let packageName := "unknown"
  if exitStatus = .NormalExit ∧ exitCode = 0 then runAutoRemove s
  else cleanupProcess (notifyUninstallFailure s packageName)

def onAutoRemoveFinished (s : State) (sender : Option Nat) (_exitCode : Int)
    (_exitStatus : ExitStatus) : State :=
  let packageName := "unknown"
  let s := match sender with
    | some process => deleteLater s process
    | none => s
  cleanupProcess (notifyUninstallSuccess s packageName)

def onProcessError (s : State) (sender : Option Nat) (_error : ProcessError) : State :=
  let packageName := "unknown"
  let s := notifyUninstallFailure s packageName
  let s := match sender with
    | some process => deleteLater s process
    | none => s
  cleanupProcess s

/-- Body of `AppManager::~AppManager`. -/
def destructor (s : State) : State :=
  match s.m_currentProcess with
  | some pid => deleteLater (modifyChild s pid QProcess.kill) pid
  | none => s

/-! ## Signal delivery -/

/-- What reaches the object from outside: the D-Bus call `uninstall`, and the two
signals of a child process. `finished` carries what the process wrote to its
standard output by then. -/
inductive Event where
  | uninstall (content : String)
  | finished (pid : Nat) (exitCode : Int) (exitStatus : ExitStatus) (output : String)
  | errorOccurred (pid : Nat) (error : ProcessError)
  deriving DecidableEq, Repr

/-- Qt's side of `finished`: the process is no longer running and its output is
buffered for reading. -/
def markFinished (s : State) (pid : Nat) (output : String) : State :=
  modifyChild s pid (fun p => { p with state := .NotRunning, standardOutput := output })

/-- Qt's side of `errorOccurred`: a process that failed to start or crashed is not
running; the other errors leave it as it is. -/
def markError (s : State) (pid : Nat) (error : ProcessError) : State :=
  if error = .FailedToStart ∨ error = .Crashed then
    modifyChild s pid (fun p => { p with state := .NotRunning })
  else s

/-- Deliver one event: a signal of child `pid` calls the slot connected to it with
that child as `sender()`. -/
def deliver (s : State) : Event → State
  | .uninstall content => uninstall s content
  | .finished pid exitCode exitStatus output =>
    match s.children[pid]?.bind (fun p => p.finishedSlot) with
    | none => s
    | some .onPackageNameResolved =>
      onPackageNameResolved (markFinished s pid output) (some pid) exitCode exitStatus
    | some .onUninstallFinished =>
      onUninstallFinished (markFinished s pid output) exitCode exitStatus
    | some .onAutoRemoveFinished =>
      onAutoRemoveFinished (markFinished s pid output) (some pid) exitCode exitStatus
  | .errorOccurred pid error =>
    match s.children[pid]? with
    | none => s
    | some _ => onProcessError (markError s pid error) (some pid) error

/-- Deliver a sequence of events, oldest first. -/
def run (s : State) (events : List Event) : State :=
  events.foldl deliver s

/-- The commands of the processes created between state `s` and a later state
`t`. -/
def launched (s t : State) : List (String × List String) :=
  (t.children.drop s.children.length).map QProcess.command

/-- The running example: `uninstall("/usr/bin/foo")`, `dpkg -S` prints
`foopkg: /usr/bin/foo`, removal and autoremove both exit normally with 0. -/
def scenario1 : List Event :=
  [.uninstall "/usr/bin/foo",
   .finished 0 0 .NormalExit "foopkg: /usr/bin/foo",
   .finished 1 0 .NormalExit "",
   .finished 2 0 .NormalExit ""]

/-! ## Observations used in the statements -/

/-- The command line of the privileged removal of `packageName`. -/
def removeCommand (packageName : String) : String × List String :=
  ("pkexec", ["apt", "remove", "--purge", "-y", packageName])

/-- The command line of the privileged dependency cleanup. -/
def autoRemoveCommand : String × List String :=
  ("pkexec", ["apt", "autoremove", "-y"])

/-- The command line of the package-name resolution of `content`. -/
def dpkgCommand (content : String) : String × List String :=
  ("dpkg", ["-S", content])

/-- What is fixed when a process is created: the slot its `finished` signal is
connected to, and its command line. -/
def QProcess.kind (p : QProcess) : Option FinishedSlot × String × List String :=
  (p.finishedSlot, p.program, p.arguments)

/-- The kinds of all processes created so far, in creation order. -/
def kinds (s : State) : List (Option FinishedSlot × String × List String) :=
  s.children.map QProcess.kind

/-- The command lines of all processes created so far, in creation order. -/
def commands (s : State) : List (String × List String) :=
  s.children.map QProcess.command

/-- The slot the `finished` signal of child `pid` is connected to. -/
def slotOf (s : State) (pid : Nat) : Option FinishedSlot :=
  s.children[pid]?.bind (fun p => p.finishedSlot)

/-- The package name `onPackageNameResolved` computes from the exit code, the
exit status and the standard output of the `dpkg` process. -/
def resolvedName (exitCode : Int) (exitStatus : ExitStatus) (output : String) : String :=
  if exitStatus = .NormalExit ∧ exitCode = 0 then trimmed (first (split output ':')) else ""

/-- The object just before `onPackageNameResolved` branches on the name: the
output is read (on a normal exit with code 0) and the sender is scheduled for
deletion. -/
def afterRead (s : State) (process : Nat) (exitCode : Int) (exitStatus : ExitStatus) : State :=
  if exitStatus = .NormalExit ∧ exitCode = 0 then
    deleteLater (readAllStandardOutput s process).2 process
  else deleteLater s process

/-- The text of `output` before its first `:`; all of it when it has none. -/
def beforeColon (output : String) : List Char :=
  output.data.takeWhile (fun c => decide (c ≠ ':'))

/-- Summary of `deliver`: the processes one event creates. -/
def spawned (s : State) : Event → List (Option FinishedSlot × String × List String)
  | .uninstall content => [(some .onPackageNameResolved, dpkgCommand content)]
  | .finished pid exitCode exitStatus output =>
    match slotOf s pid with
    | some .onPackageNameResolved =>
      if resolvedName exitCode exitStatus output = "" then []
      else [(some .onUninstallFinished,
        removeCommand (resolvedName exitCode exitStatus output))]
    | some .onUninstallFinished =>
      if exitStatus = .NormalExit ∧ exitCode = 0 then
        [(some .onAutoRemoveFinished, autoRemoveCommand)]
      else []
    | _ => []
  | .errorOccurred _ _ => []

/-- Summary of `deliver`: the notifications one event requests. -/
def notified (s : State) : Event → List Notification
  | .uninstall _ => []
  | .finished pid exitCode exitStatus output =>
    match slotOf s pid with
    | some .onPackageNameResolved =>
      if resolvedName exitCode exitStatus output = "" then [.Failure ""]
      else [.Uninstalling (resolvedName exitCode exitStatus output)]
    | some .onUninstallFinished =>
      if exitStatus = .NormalExit ∧ exitCode = 0 then [] else [.Failure "unknown"]
    | some .onAutoRemoveFinished => [.Success "unknown"]
    | none => []
  | .errorOccurred pid _ =>
    match s.children[pid]? with
    | none => []
    | some _ => [.Failure "unknown"]

/-- The three kinds of process the source creates; a removal always names a
package. -/
def WellFormed (k : Option FinishedSlot × String × List String) : Prop :=
  (∃ content, k = (some .onPackageNameResolved, dpkgCommand content)) ∨
  (∃ packageName, packageName ≠ "" ∧ k = (some .onUninstallFinished, removeCommand packageName)) ∨
  k = (some .onAutoRemoveFinished, autoRemoveCommand)

/-- Stage ResolvingName: one request, `dpkg -S` in flight. -/
def stageResolvingName : State :=
  run init [.uninstall "/usr/bin/foo"]

/-- Stage Removing: the name is resolved, `pkexec apt remove` in flight. -/
def stageRemoving : State :=
  run init [.uninstall "/usr/bin/foo", .finished 0 0 .NormalExit "foopkg: /usr/bin/foo"]

/-- Stage CleaningDependencies: removal succeeded, `pkexec apt autoremove` in
flight. -/
def stageCleaningDependencies : State :=
  run init [.uninstall "/usr/bin/foo", .finished 0 0 .NormalExit "foopkg: /usr/bin/foo",
    .finished 1 0 .NormalExit ""]

/-! ## Strings: what `split(':').first().trimmed()` computes -/


theorem splitChars_ne_nil (sep : Char) (l : List Char) : splitChars sep l ≠ [] := by
  induction l with
  | nil => simp [splitChars]
  | cons c cs ih =>
    unfold splitChars
    split
    · simp
    · split <;> simp

/-- The first piece of a split is the text before the first separator. -/
theorem head_splitChars (sep : Char) (l : List Char) :
    (splitChars sep l).headD [] = l.takeWhile (fun c => decide (c ≠ sep)) := by
  induction l with
  | nil => simp [splitChars]
  | cons c cs ih =>
    unfold splitChars
    by_cases h : c = sep
    · simp [h]
    · simp only [h, if_false]
      have hne := splitChars_ne_nil sep cs
      cases hsp : splitChars sep cs with
      | nil => exact absurd hsp hne
      | cons piece pieces =>
        rw [hsp] at ih
        simp only [List.headD_cons] at ih
        simp [List.takeWhile_cons, h, ih]

theorem first_split (s : String) (sep : Char) :
    first (split s sep) = String.mk (s.data.takeWhile (fun c => decide (c ≠ sep))) := by
  unfold first split
  have hne := splitChars_ne_nil sep s.data
  have h := head_splitChars sep s.data
  cases hsp : splitChars sep s.data with
  | nil => exact absurd hsp hne
  | cons piece pieces =>
    rw [hsp] at h
    simp only [List.headD_cons] at h
    simp [h]

theorem takeWhile_append_sep (sep : Char) (a b : List Char) (h : sep ∉ a) :
    (a ++ sep :: b).takeWhile (fun c => decide (c ≠ sep)) = a := by
  induction a with
  | nil => simp [List.takeWhile_cons]
  | cons c cs ih =>
    have hc : c ≠ sep := fun e => h (by simp [e])
    have hcs : sep ∉ cs := fun e => h (by simp [e])
    have ih2 := ih hcs
    simp only [ne_eq, decide_not] at ih2
    simp [List.takeWhile_cons, hc, ih2]

/-- For output `pkg ++ ":" ++ rest` with no `:` in `pkg`, the first piece is
`pkg`. -/
theorem first_split_form (pkg rest : String) (h : ':' ∉ pkg.data) :
    first (split (pkg ++ ":" ++ rest) ':') = pkg := by
  rw [first_split]
  have : (pkg ++ ":" ++ rest).data = pkg.data ++ ':' :: rest.data := by
    simp [String.data_append]
  rw [this, takeWhile_append_sep _ _ _ h]

/-- Without a separator the first piece is the whole string. -/
theorem first_split_no_sep (s : String) (sep : Char) (h : sep ∉ s.data) :
    first (split s sep) = s := by
  rw [first_split]
  have : s.data.takeWhile (fun c => decide (c ≠ sep)) = s.data := by
    rw [List.takeWhile_eq_self_iff]
    intro c hc
    have : c ≠ sep := fun e => h (e ▸ hc)
    simpa using this
  rw [this]

/-! ### `trimmed` -/

theorem head_dropWhile_isSpace (l : List Char) (c : Char)
    (h : (l.dropWhile isSpace).head? = some c) : isSpace c = false := by
  have := List.head?_dropWhile_not isSpace l
  rw [h] at this
  simpa using this

/-- The last character of a trimmed string is not white space. -/
theorem getLast_trimmedChars (l : List Char) (c : Char)
    (h : (trimmedChars l).getLast? = some c) : isSpace c = false := by
  unfold trimmedChars at h
  rw [List.getLast?_reverse] at h
  exact head_dropWhile_isSpace _ c h

theorem getLast_dropWhile (p : Char → Bool) (l : List Char) (c : Char)
    (h : (l.dropWhile p).getLast? = some c) : l.getLast? = some c := by
  have hl : l = l.takeWhile p ++ l.dropWhile p := (List.takeWhile_append_dropWhile p l).symm
  have hne : l.dropWhile p ≠ [] := by
    intro e
    rw [e] at h
    simp at h
  rw [hl, List.getLast?_append_of_ne_nil _ hne]
  exact h

/-- The first character of a trimmed string is not white space. -/
theorem head_trimmedChars (l : List Char) (c : Char)
    (h : (trimmedChars l).head? = some c) : isSpace c = false := by
  unfold trimmedChars at h
  rw [List.head?_reverse] at h
  have h2 := getLast_dropWhile _ _ _ h
  rw [List.getLast?_reverse] at h2
  exact head_dropWhile_isSpace _ c h2

/-- Trimming removes only white space, and only from the two ends. -/
theorem trimmedChars_decomp (l : List Char) :
    ∃ a b : List Char, l = a ++ trimmedChars l ++ b ∧
      (∀ c ∈ a, isSpace c = true) ∧ (∀ c ∈ b, isSpace c = true) := by
  refine ⟨l.takeWhile isSpace,
    (((l.dropWhile isSpace).reverse).takeWhile isSpace).reverse, ?_, ?_, ?_⟩
  · have h1 : l = l.takeWhile isSpace ++ l.dropWhile isSpace :=
      (List.takeWhile_append_dropWhile isSpace l).symm
    have h2 : (l.dropWhile isSpace).reverse
        = ((l.dropWhile isSpace).reverse).takeWhile isSpace
          ++ ((l.dropWhile isSpace).reverse).dropWhile isSpace :=
      (List.takeWhile_append_dropWhile isSpace _).symm
    have h3 : l.dropWhile isSpace
        = (((l.dropWhile isSpace).reverse).dropWhile isSpace).reverse
          ++ (((l.dropWhile isSpace).reverse).takeWhile isSpace).reverse := by
      rw [← List.reverse_append, ← h2, List.reverse_reverse]
    unfold trimmedChars
    rw [List.append_assoc, ← h3]
    exact h1
  · intro c hc
    exact (List.mem_takeWhile_imp hc)
  · intro c hc
    rw [List.mem_reverse] at hc
    exact (List.mem_takeWhile_imp hc)

theorem isEmpty_eq_false_iff (s : String) : isEmpty s = false ↔ s ≠ "" := by
  unfold isEmpty
  constructor
  · intro h e
    rw [e] at h
    simp at h
  · intro h
    cases hd : s.data with
    | nil =>
      exfalso
      apply h
      exact String.ext hd
    | cons c cs => rfl

/-! ## Children: pointers, commands -/

theorem length_modifyNth (f : QProcess → QProcess) (n : Nat) (l : List QProcess) :
    (modifyNth f n l).length = l.length := by
  induction l generalizing n with
  | nil => cases n <;> rfl
  | cons p ps ih =>
    cases n with
    | zero => rfl
    | succ n => simp [modifyNth, ih]

theorem getElem?_modifyNth (f : QProcess → QProcess) (n : Nat) (l : List QProcess) :
    (modifyNth f n l)[n]? = l[n]?.map f := by
  induction l generalizing n with
  | nil => cases n <;> simp [modifyNth]
  | cons p ps ih =>
    cases n with
    | zero => simp [modifyNth]
    | succ n => simp [modifyNth, ih]

theorem map_modifyNth {β : Type} (g : QProcess → β) (f : QProcess → QProcess)
    (hf : ∀ p, g (f p) = g p) (n : Nat) (l : List QProcess) :
    (modifyNth f n l).map g = l.map g := by
  induction l generalizing n with
  | nil => cases n <;> rfl
  | cons p ps ih =>
    cases n with
    | zero => simp [modifyNth, hf]
    | succ n => simp [modifyNth, ih]

theorem getElem?_modifyNth_kind (f : QProcess → QProcess) (hf : ∀ p, (f p).kind = p.kind)
    (n m : Nat) (l : List QProcess) :
    (modifyNth f n l)[m]?.map QProcess.kind = l[m]?.map QProcess.kind := by
  have h := map_modifyNth QProcess.kind f hf n l
  have := congrArg (fun k => k[m]?) h
  simpa [List.getElem?_map] using this

theorem trimmed_eq_empty_of_all_space (s : String) (h : ∀ c ∈ s.data, isSpace c = true) :
    trimmed s = "" := by
  unfold trimmed trimmedChars
  have : s.data.dropWhile isSpace = [] := by
    rw [List.dropWhile_eq_nil_iff]
    exact h
  rw [this]
  rfl

/-! ## What is fixed at creation is never changed -/

theorem kinds_modifyChild (s : State) (pid : Nat) (f : QProcess → QProcess)
    (hf : ∀ p, (f p).kind = p.kind) : kinds (modifyChild s pid f) = kinds s := by
  simp only [kinds, modifyChild]
  exact map_modifyNth _ f hf pid s.children

@[simp] theorem kinds_deleteLater (s : State) (pid : Nat) :
    kinds (deleteLater s pid) = kinds s :=
  kinds_modifyChild s pid _ (fun _ => rfl)

@[simp] theorem kinds_readAll (s : State) (pid : Nat) :
    kinds (readAllStandardOutput s pid).2 = kinds s :=
  kinds_modifyChild s pid _ (fun _ => rfl)

@[simp] theorem kinds_markFinished (s : State) (pid : Nat) (output : String) :
    kinds (markFinished s pid output) = kinds s :=
  kinds_modifyChild s pid _ (fun _ => rfl)

@[simp] theorem kinds_markError (s : State) (pid : Nat) (error : ProcessError) :
    kinds (markError s pid error) = kinds s := by
  unfold markError
  split
  · exact kinds_modifyChild s pid _ (fun _ => rfl)
  · rfl

@[simp] theorem kinds_notifyUninstalling (s : State) (n : String) :
    kinds (notifyUninstalling s n) = kinds s := rfl

@[simp] theorem kinds_notifyUninstallFailure (s : State) (n : String) :
    kinds (notifyUninstallFailure s n) = kinds s := rfl

@[simp] theorem kinds_cleanupProcess (s : State) :
    kinds (cleanupProcess s) = kinds s := by
  unfold cleanupProcess
  split
  · exact kinds_deleteLater s _
  · rfl

@[simp] theorem kinds_notifyUninstallSuccess (s : State) (n : String) :
    kinds (notifyUninstallSuccess s n) = kinds s := by
  unfold notifyUninstallSuccess
  rw [kinds_cleanupProcess]
  rfl

@[simp] theorem kinds_afterRead (s : State) (process : Nat) (exitCode : Int)
    (exitStatus : ExitStatus) : kinds (afterRead s process exitCode exitStatus) = kinds s := by
  unfold afterRead
  split <;> simp

@[simp] theorem kinds_getPackageNameFromFile (s : State) (filePath : String) :
    kinds (getPackageNameFromFile s filePath)
      = kinds s ++ [(some .onPackageNameResolved, dpkgCommand filePath)] := by
  simp [kinds, getPackageNameFromFile, addChild, QProcess.kind, QProcess.start,
    QProcess.connectFinished, QProcess.setArguments, QProcess.setProgram, QProcess.new,
    dpkgCommand]

@[simp] theorem kinds_startUninstall (s : State) (packageName : String) :
    kinds (startUninstall s packageName)
      = kinds s ++ [(some .onUninstallFinished, removeCommand packageName)] := by
  simp [kinds, startUninstall, addChild, notifyUninstalling, QProcess.kind,
    QProcess.start, QProcess.connectFinished, QProcess.setArguments, QProcess.setProgram,
    QProcess.new, removeCommand]

@[simp] theorem kinds_runAutoRemove (s : State) :
    kinds (runAutoRemove s) = kinds s ++ [(some .onAutoRemoveFinished, autoRemoveCommand)] := by
  simp [kinds, runAutoRemove, addChild, QProcess.kind, QProcess.start,
    QProcess.connectFinished, QProcess.setArguments, QProcess.setProgram, QProcess.new,
    autoRemoveCommand]

theorem commands_eq_kinds (s : State) : commands s = (kinds s).map Prod.snd := by
  simp [commands, kinds, QProcess.command, QProcess.kind, Function.comp_def]

theorem launched_eq (s t : State) :
    launched s t = (commands t).drop (commands s).length := by
  simp [launched, commands, List.map_drop]

theorem launched_of_kinds (s t : State) (new : List (Option FinishedSlot × String × List String))
    (h : kinds t = kinds s ++ new) : launched s t = new.map Prod.snd := by
  rw [launched_eq, commands_eq_kinds, commands_eq_kinds, h]
  simp

theorem slotOf_eq_kinds (s : State) (pid : Nat) :
    slotOf s pid = (kinds s)[pid]?.bind Prod.fst := by
  unfold slotOf kinds
  rw [List.getElem?_map]
  cases s.children[pid]? <;> rfl

/-! ## Notifications -/

@[simp] theorem notifications_modifyChild (s : State) (pid : Nat) (f : QProcess → QProcess) :
    (modifyChild s pid f).notifications = s.notifications := rfl

@[simp] theorem notifications_deleteLater (s : State) (pid : Nat) :
    (deleteLater s pid).notifications = s.notifications := rfl

@[simp] theorem notifications_readAll (s : State) (pid : Nat) :
    (readAllStandardOutput s pid).2.notifications = s.notifications := rfl

@[simp] theorem notifications_markFinished (s : State) (pid : Nat) (output : String) :
    (markFinished s pid output).notifications = s.notifications := rfl

@[simp] theorem notifications_markError (s : State) (pid : Nat) (error : ProcessError) :
    (markError s pid error).notifications = s.notifications := by
  unfold markError
  split <;> rfl

@[simp] theorem notifications_cleanupProcess (s : State) :
    (cleanupProcess s).notifications = s.notifications := by
  unfold cleanupProcess
  split <;> rfl

@[simp] theorem notifications_notifyUninstalling (s : State) (n : String) :
    (notifyUninstalling s n).notifications = s.notifications ++ [.Uninstalling n] := rfl

@[simp] theorem notifications_notifyUninstallFailure (s : State) (n : String) :
    (notifyUninstallFailure s n).notifications = s.notifications ++ [.Failure n] := rfl

@[simp] theorem notifications_notifyUninstallSuccess (s : State) (n : String) :
    (notifyUninstallSuccess s n).notifications = s.notifications ++ [.Success n] := by
  unfold notifyUninstallSuccess
  rw [notifications_cleanupProcess]

@[simp] theorem notifications_getPackageNameFromFile (s : State) (filePath : String) :
    (getPackageNameFromFile s filePath).notifications = s.notifications := rfl

@[simp] theorem notifications_startUninstall (s : State) (packageName : String) :
    (startUninstall s packageName).notifications
      = s.notifications ++ [.Uninstalling packageName] := rfl

@[simp] theorem notifications_runAutoRemove (s : State) :
    (runAutoRemove s).notifications = s.notifications := rfl

@[simp] theorem notifications_afterRead (s : State) (process : Nat) (exitCode : Int)
    (exitStatus : ExitStatus) :
    (afterRead s process exitCode exitStatus).notifications = s.notifications := by
  unfold afterRead
  split <;> rfl

/-! ## The slots, one by one -/

/-- The slot `onPackageNameResolved`, as a function of the name it computes. -/
theorem onPackageNameResolved_eq (s : State) (process : Nat) (exitCode : Int)
    (exitStatus : ExitStatus) :
    onPackageNameResolved s (some process) exitCode exitStatus
      = if resolvedName exitCode exitStatus (readAllStandardOutput s process).1 = "" then
          notifyUninstallFailure (afterRead s process exitCode exitStatus) ""
        else
          startUninstall (afterRead s process exitCode exitStatus)
            (resolvedName exitCode exitStatus (readAllStandardOutput s process).1) := by
  unfold onPackageNameResolved resolvedName afterRead
  by_cases h : exitStatus = .NormalExit ∧ exitCode = 0
  · simp only [h, and_self, if_true]
    by_cases he : trimmed (first (split (readAllStandardOutput s process).1 ':')) = ""
    · simp [he, isEmpty]
    · have := (isEmpty_eq_false_iff _).2 he
      simp [he, this]
  · simp [h, isEmpty]

/-- After Qt buffered `output` for child `pid`, reading it returns `output`. -/
theorem readAll_markFinished (s : State) (pid : Nat) (output : String)
    (h : (slotOf s pid).isSome) :
    (readAllStandardOutput (markFinished s pid output) pid).1 = output := by
  unfold readAllStandardOutput markFinished modifyChild
  simp only [getElem?_modifyNth]
  unfold slotOf at h
  cases hc : s.children[pid]? with
  | none => rw [hc] at h; simp at h
  | some p => simp

theorem slotOf_markFinished (s : State) (pid pid2 : Nat) (output : String) :
    slotOf (markFinished s pid output) pid2 = slotOf s pid2 := by
  rw [slotOf_eq_kinds, slotOf_eq_kinds, kinds_markFinished]

/-- The slot `onPackageNameResolved` as `deliver` calls it. -/
theorem deliver_resolved_eq (s : State) (pid : Nat) (exitCode : Int) (exitStatus : ExitStatus)
    (output : String) (h : slotOf s pid = some .onPackageNameResolved) :
    deliver s (.finished pid exitCode exitStatus output)
      = if resolvedName exitCode exitStatus output = "" then
          notifyUninstallFailure
            (afterRead (markFinished s pid output) pid exitCode exitStatus) ""
        else
          startUninstall (afterRead (markFinished s pid output) pid exitCode exitStatus)
            (resolvedName exitCode exitStatus output) := by
  have hs : (slotOf s pid).isSome := by rw [h]; rfl
  unfold slotOf at h
  simp only [deliver, h]
  rw [onPackageNameResolved_eq, readAll_markFinished s pid output hs]

/-- Every event extends the list of processes by what `spawned` says and changes
no existing command line or connection. -/
theorem kinds_deliver (s : State) (e : Event) :
    kinds (deliver s e) = kinds s ++ spawned s e := by
  cases e with
  | uninstall content => simp [deliver, uninstall, spawned]
  | finished pid exitCode exitStatus output =>
    cases h : slotOf s pid with
    | none =>
      have h2 := h
      unfold slotOf at h2
      simp [deliver, spawned, h, h2]
    | some slot =>
      cases slot with
      | onPackageNameResolved =>
        rw [deliver_resolved_eq s pid exitCode exitStatus output h]
        simp only [spawned, h]
        split <;> simp
      | onUninstallFinished =>
        have h2 := h
        unfold slotOf at h2
        simp only [deliver, h2, spawned, h, onUninstallFinished]
        split <;> simp
      | onAutoRemoveFinished =>
        have h2 := h
        unfold slotOf at h2
        simp [deliver, h2, spawned, h, onAutoRemoveFinished]
  | errorOccurred pid error =>
    simp only [deliver, spawned]
    split <;> simp [onProcessError]

/-- Every event extends the notifications by what `notified` says. -/
theorem notifications_deliver (s : State) (e : Event) :
    (deliver s e).notifications = s.notifications ++ notified s e := by
  cases e with
  | uninstall content => simp [deliver, uninstall, notified]
  | finished pid exitCode exitStatus output =>
    cases h : slotOf s pid with
    | none =>
      have h2 := h
      unfold slotOf at h2
      simp [deliver, notified, h, h2]
    | some slot =>
      cases slot with
      | onPackageNameResolved =>
        rw [deliver_resolved_eq s pid exitCode exitStatus output h]
        simp only [notified, h]
        split <;> simp
      | onUninstallFinished =>
        have h2 := h
        unfold slotOf at h2
        simp only [deliver, h2, notified, h, onUninstallFinished]
        split <;> simp
      | onAutoRemoveFinished =>
        have h2 := h
        unfold slotOf at h2
        simp [deliver, h2, notified, h, onAutoRemoveFinished]
  | errorOccurred pid error =>
    simp only [deliver, notified]
    split <;> simp [onProcessError]

theorem launched_deliver (s : State) (e : Event) :
    launched s (deliver s e) = (spawned s e).map Prod.snd :=
  launched_of_kinds s _ _ (kinds_deliver s e)

/-! ## Resolution of the package name -/

theorem resolvedName_form (pkg rest : String) (h : ':' ∉ pkg.data) :
    resolvedName 0 .NormalExit (pkg ++ ":" ++ rest) = trimmed pkg := by
  simp [resolvedName, first_split_form pkg rest h]

theorem resolvedName_no_sep (output : String) (h : ':' ∉ output.data) :
    resolvedName 0 .NormalExit output = trimmed output := by
  simp [resolvedName, first_split_no_sep output ':' h]

theorem resolvedName_blank (exitCode : Int) (exitStatus : ExitStatus) (output : String)
    (h : exitStatus ≠ .NormalExit ∨ exitCode ≠ 0 ∨ ∀ c ∈ beforeColon output, isSpace c = true) :
    resolvedName exitCode exitStatus output = "" := by
  unfold resolvedName
  by_cases hc : exitStatus = .NormalExit ∧ exitCode = 0
  · rw [if_pos hc]
    rcases h with h | h | h
    · exact absurd hc.1 h
    · exact absurd hc.2 h
    · rw [first_split]
      exact trimmed_eq_empty_of_all_space _ h
  · rw [if_neg hc]

/-- Effect of a `dpkg` result from which no name is resolved. -/
theorem deliver_resolution_failed (s : State) (pid : Nat) (exitCode : Int)
    (exitStatus : ExitStatus) (output : String)
    (hslot : slotOf s pid = some .onPackageNameResolved)
    (h : resolvedName exitCode exitStatus output = "") :
    launched s (deliver s (.finished pid exitCode exitStatus output)) = [] ∧
    (deliver s (.finished pid exitCode exitStatus output)).notifications
      = s.notifications ++ [.Failure ""] := by
  rw [launched_deliver, notifications_deliver]
  simp [spawned, notified, hslot, h]

/-- Effect of a `dpkg` result from which a name is resolved. -/
theorem deliver_resolution_ok (s : State) (pid : Nat) (exitCode : Int)
    (exitStatus : ExitStatus) (output : String)
    (hslot : slotOf s pid = some .onPackageNameResolved)
    (h : resolvedName exitCode exitStatus output ≠ "") :
    launched s (deliver s (.finished pid exitCode exitStatus output))
      = [removeCommand (resolvedName exitCode exitStatus output)] ∧
    (deliver s (.finished pid exitCode exitStatus output)).notifications
      = s.notifications ++ [.Uninstalling (resolvedName exitCode exitStatus output)] := by
  rw [launched_deliver, notifications_deliver]
  simp [spawned, notified, hslot, h]

/-! ## Processes of a run -/

theorem wellFormed_spawned (s : State) (e : Event) : ∀ k ∈ spawned s e, WellFormed k := by
  intro k hk
  cases e with
  | uninstall content =>
    simp only [spawned, List.mem_singleton] at hk
    exact Or.inl ⟨content, hk⟩
  | finished pid exitCode exitStatus output =>
    simp only [spawned] at hk
    split at hk
    · split at hk
      · simp at hk
      · next hne =>
        simp only [List.mem_singleton] at hk
        exact Or.inr (Or.inl ⟨_, hne, hk⟩)
    · split at hk
      · simp only [List.mem_singleton] at hk
        exact Or.inr (Or.inr hk)
      · simp at hk
    · simp at hk
  | errorOccurred pid error => simp [spawned] at hk

theorem wellFormed_run_of (s : State) (events : List Event)
    (h : ∀ k ∈ kinds s, WellFormed k) : ∀ k ∈ kinds (run s events), WellFormed k := by
  induction events generalizing s with
  | nil => exact h
  | cons e es ih =>
    have : run s (e :: es) = run (deliver s e) es := rfl
    rw [this]
    apply ih
    intro k hk
    rw [kinds_deliver, List.mem_append] at hk
    rcases hk with hk | hk
    · exact h k hk
    · exact wellFormed_spawned s e k hk

/-- In every run from the constructor, each process is one of the three kinds the
source creates. -/
theorem wellFormed_run (events : List Event) : ∀ k ∈ kinds (run init events), WellFormed k :=
  wellFormed_run_of init events (by intro k hk; simp [kinds, init] at hk)

theorem remove_of_slot {k : Option FinishedSlot × String × List String} (h : WellFormed k)
    (hs : k.1 = some .onUninstallFinished) :
    ∃ packageName, packageName ≠ "" ∧ k.2 = removeCommand packageName := by
  rcases h with ⟨c, rfl⟩ | ⟨n, hn, rfl⟩ | rfl
  · simp at hs
  · exact ⟨n, hn, rfl⟩
  · simp at hs

theorem slot_of_remove {k : Option FinishedSlot × String × List String} (h : WellFormed k)
    (packageName : String) (hc : k.2 = removeCommand packageName) :
    k.1 = some .onUninstallFinished ∧ packageName ≠ "" := by
  rcases h with ⟨c, rfl⟩ | ⟨n, hn, rfl⟩ | rfl
  · simp [removeCommand, dpkgCommand] at hc
  · simp only [removeCommand, Prod.mk.injEq, List.cons.injEq, true_and, and_true] at hc
    exact ⟨rfl, hc ▸ hn⟩
  · simp [removeCommand, autoRemoveCommand] at hc

theorem kinds_getElem?_of_commands (s : State) (pid : Nat) (cmd : String × List String)
    (h : (commands s)[pid]? = some cmd) : ∃ k, (kinds s)[pid]? = some k ∧ k.2 = cmd := by
  rw [commands_eq_kinds, List.getElem?_map] at h
  cases hk : (kinds s)[pid]? with
  | none => rw [hk] at h; simp at h
  | some k =>
    rw [hk] at h
    simp only [Option.map_some', Option.some.injEq] at h
    exact ⟨k, rfl, h⟩

/-! ## Claims -/

/-- C1. When the `dpkg -S` process exits normally with code 0 and its output is
`pkg ++ ":" ++ rest` with no `:` in `pkg` and `pkg` not blank,
`onPackageNameResolved` calls `startUninstall` with exactly `trimmed pkg`: the
removal of `trimmed pkg` is launched and announced. `trimmed pkg` is `pkg` with
white space, and nothing else, removed from both ends: it neither starts nor ends
with white space. -/
theorem C1_resolution_yields_trimmed_package (s : State) (pid : Nat) (pkg rest : String)
    (hslot : slotOf s pid = some .onPackageNameResolved)
    (hcolon : ':' ∉ pkg.data) (hne : trimmed pkg ≠ "") :
    first (split (pkg ++ ":" ++ rest) ':') = pkg ∧
    deliver s (.finished pid 0 .NormalExit (pkg ++ ":" ++ rest))
      = startUninstall
          (afterRead (markFinished s pid (pkg ++ ":" ++ rest)) pid 0 .NormalExit)
          (trimmed pkg) ∧
    launched s (deliver s (.finished pid 0 .NormalExit (pkg ++ ":" ++ rest)))
      = [("pkexec", ["apt", "remove", "--purge", "-y", trimmed pkg])] ∧
    (deliver s (.finished pid 0 .NormalExit (pkg ++ ":" ++ rest))).notifications
      = s.notifications ++ [.Uninstalling (trimmed pkg)] ∧
    (∀ c, (trimmed pkg).data.head? = some c → isSpace c = false) ∧
    (∀ c, (trimmed pkg).data.getLast? = some c → isSpace c = false) ∧
    (∃ a b : List Char, pkg.data = a ++ (trimmed pkg).data ++ b ∧
      (∀ c ∈ a, isSpace c = true) ∧ (∀ c ∈ b, isSpace c = true)) := by
  have hr := resolvedName_form pkg rest hcolon
  have hr2 : resolvedName 0 .NormalExit (pkg ++ ":" ++ rest) ≠ "" := by rw [hr]; exact hne
  have hd := deliver_resolved_eq s pid 0 .NormalExit (pkg ++ ":" ++ rest) hslot
  rw [if_neg hr2, hr] at hd
  have he := deliver_resolution_ok s pid 0 .NormalExit (pkg ++ ":" ++ rest) hslot hr2
  rw [hr] at he
  exact ⟨first_split_form pkg rest hcolon, hd, he.1, he.2,
    fun c hc => head_trimmedChars pkg.data c hc,
    fun c hc => getLast_trimmedChars pkg.data c hc,
    trimmedChars_decomp pkg.data⟩

/-- C1 at `dpkg -S` printing `  foopkg : /usr/bin/foo` in stage ResolvingName. -/
theorem C1_witness :
    launched stageResolvingName
        (deliver stageResolvingName (.finished 0 0 .NormalExit ("  foopkg " ++ ":" ++ " /usr/bin/foo")))
      = [("pkexec", ["apt", "remove", "--purge", "-y", trimmed "  foopkg "])] ∧
    trimmed "  foopkg " = "foopkg" :=
  ⟨(C1_resolution_yields_trimmed_package stageResolvingName 0 "  foopkg " " /usr/bin/foo"
      (by decide) (by decide) (by decide)).2.2.1, by decide⟩

/-- C2 as stated fails: in stage ResolvingName, `dpkg -S` exits normally with code
0 and prints `foopkg`, which has no `:`; the removal of `foopkg` is launched with
`pkexec` and no Failure notification is requested. -/
theorem C2_counterexample :
    ':' ∉ "foopkg".data ∧
    launched stageResolvingName
        (deliver stageResolvingName (.finished 0 0 .NormalExit "foopkg"))
      = [("pkexec", ["apt", "remove", "--purge", "-y", "foopkg"])] ∧
    (deliver stageResolvingName (.finished 0 0 .NormalExit "foopkg")).notifications
      = [.Uninstalling "foopkg"] := by
  decide

/-- C2, amended. Whatever the exit code and status, a `dpkg -S` output whose text
before the first `:` (all of it when it has no `:`) is empty or only white space
makes resolution fail: Failure with the empty name is requested and no process is
launched. An output without `:` that is not blank is not rejected on a normal exit
with code 0: all of it, trimmed, is the package name whose removal is launched. -/
theorem C2_blank_before_colon_fails (s : State) (pid : Nat)
    (hslot : slotOf s pid = some .onPackageNameResolved) :
    (∀ (exitCode : Int) (exitStatus : ExitStatus) (output : String),
      (∀ c ∈ beforeColon output, isSpace c = true) →
      launched s (deliver s (.finished pid exitCode exitStatus output)) = [] ∧
      (deliver s (.finished pid exitCode exitStatus output)).notifications
        = s.notifications ++ [.Failure ""]) ∧
    (∀ output : String, ':' ∉ output.data → trimmed output ≠ "" →
      launched s (deliver s (.finished pid 0 .NormalExit output))
        = [("pkexec", ["apt", "remove", "--purge", "-y", trimmed output])] ∧
      (deliver s (.finished pid 0 .NormalExit output)).notifications
        = s.notifications ++ [.Uninstalling (trimmed output)]) := by
  constructor
  · intro exitCode exitStatus output h
    exact deliver_resolution_failed s pid exitCode exitStatus output hslot
      (resolvedName_blank exitCode exitStatus output (Or.inr (Or.inr h)))
  · intro output hno hne
    have hr := resolvedName_no_sep output hno
    have he := deliver_resolution_ok s pid 0 .NormalExit output hslot (by rw [hr]; exact hne)
    rw [hr] at he
    exact he

/-- C2, amended, at the outputs ` : /usr/bin/foo` (blank before the `:`) and
`foopkg` (no `:`) in stage ResolvingName. -/
theorem C2_witness :
    (launched stageResolvingName
        (deliver stageResolvingName (.finished 0 0 .NormalExit " : /usr/bin/foo")) = [] ∧
      (deliver stageResolvingName (.finished 0 0 .NormalExit " : /usr/bin/foo")).notifications
        = stageResolvingName.notifications ++ [.Failure ""]) ∧
    launched stageResolvingName
        (deliver stageResolvingName (.finished 0 0 .NormalExit "foopkg"))
      = [("pkexec", ["apt", "remove", "--purge", "-y", trimmed "foopkg"])] :=
  ⟨(C2_blank_before_colon_fails stageResolvingName 0 (by decide)).1 0 .NormalExit
      " : /usr/bin/foo" (by decide),
    ((C2_blank_before_colon_fails stageResolvingName 0 (by decide)).2 "foopkg"
      (by decide) (by decide)).1⟩

/-- C8. When the name resolved from a `dpkg` result is empty (the exit is
abnormal, or the exit code is not 0, or the text before the first `:` is empty or
only white space, which includes empty output), no process is launched and Failure
with the empty name is requested. In every run from the constructor, every
`pkexec apt remove` command has exactly the arguments `--purge -y name` after
`apt remove`, with `name` not empty. -/
theorem C8_empty_name_never_removed :
    (∀ (s : State) (pid : Nat) (exitCode : Int) (exitStatus : ExitStatus) (output : String),
      slotOf s pid = some .onPackageNameResolved →
      (exitStatus ≠ .NormalExit ∨ exitCode ≠ 0 ∨ ∀ c ∈ beforeColon output, isSpace c = true) →
      launched s (deliver s (.finished pid exitCode exitStatus output)) = [] ∧
      (deliver s (.finished pid exitCode exitStatus output)).notifications
        = s.notifications ++ [.Failure ""]) ∧
    (∀ (events : List Event) (args : List String),
      ("pkexec", "apt" :: "remove" :: args) ∈ commands (run init events) →
      ∃ packageName, packageName ≠ "" ∧ args = ["--purge", "-y", packageName]) := by
  constructor
  · intro s pid exitCode exitStatus output hslot h
    exact deliver_resolution_failed s pid exitCode exitStatus output hslot
      (resolvedName_blank exitCode exitStatus output h)
  · intro events args hmem
    rw [commands_eq_kinds, List.mem_map] at hmem
    obtain ⟨k, hk, hk2⟩ := hmem
    rcases wellFormed_run events k hk with ⟨c, rfl⟩ | ⟨n, hn, rfl⟩ | rfl
    · simp [dpkgCommand] at hk2
    · simp only [removeCommand, Prod.mk.injEq, List.cons.injEq, true_and] at hk2
      exact ⟨n, hn, hk2.symm⟩
    · simp [autoRemoveCommand] at hk2

/-- C8 at a `dpkg -S` that exits with code 1 in stage ResolvingName, and at the
removal command of stage Removing. -/
theorem C8_witness :
    (launched stageResolvingName
        (deliver stageResolvingName (.finished 0 1 .NormalExit "")) = [] ∧
      (deliver stageResolvingName (.finished 0 1 .NormalExit "")).notifications
        = stageResolvingName.notifications ++ [.Failure ""]) ∧
    ∃ packageName, packageName ≠ "" ∧ ["--purge", "-y", "foopkg"] = ["--purge", "-y", packageName] :=
  ⟨C8_empty_name_never_removed.1 stageResolvingName 0 1 .NormalExit "" (by decide)
      (Or.inr (Or.inl (by decide))),
    C8_empty_name_never_removed.2
      [.uninstall "/usr/bin/foo", .finished 0 0 .NormalExit "foopkg: /usr/bin/foo"]
      ["--purge", "-y", "foopkg"] (by decide)⟩

/-- C4. In every run from the constructor, an event launches the autoremove
command exactly when it is the `finished` signal, with normal exit and exit code
0, of a process running `pkexec apt remove --purge -y name`. In particular a
removal that ends with a non-zero code or abnormally, and every `errorOccurred`
signal, launches no autoremove. -/
theorem C4_autoremove_only_after_successful_removal (events : List Event) (e : Event) :
    (("pkexec", ["apt", "autoremove", "-y"]) ∈ launched (run init events) (deliver (run init events) e)
      ↔ ∃ pid output packageName, e = .finished pid 0 .NormalExit output ∧
          (commands (run init events))[pid]?
            = some ("pkexec", ["apt", "remove", "--purge", "-y", packageName])) ∧
    (∀ pid exitCode exitStatus output, ¬ (exitStatus = .NormalExit ∧ exitCode = 0) →
      ("pkexec", ["apt", "autoremove", "-y"])
        ∉ launched (run init events)
            (deliver (run init events) (.finished pid exitCode exitStatus output))) ∧
    (∀ pid error,
      launched (run init events) (deliver (run init events) (.errorOccurred pid error)) = []) := by
  have key : ∀ e : Event,
      (("pkexec", ["apt", "autoremove", "-y"])
          ∈ launched (run init events) (deliver (run init events) e)
        ↔ ∃ pid output packageName, e = .finished pid 0 .NormalExit output ∧
            (commands (run init events))[pid]?
              = some ("pkexec", ["apt", "remove", "--purge", "-y", packageName])) := by
    intro e
    rw [launched_deliver]
    constructor
    · intro h
      cases e with
      | uninstall content => simp [spawned, dpkgCommand] at h
      | errorOccurred pid error => simp [spawned] at h
      | finished pid exitCode exitStatus output =>
        simp only [spawned] at h
        split at h
        · split at h
          · simp at h
          · simp [removeCommand] at h
        · next hslot =>
          split at h
          · next hc =>
            rw [slotOf_eq_kinds] at hslot
            cases hk : (kinds (run init events))[pid]? with
            | none => rw [hk] at hslot; simp at hslot
            | some k =>
              rw [hk] at hslot
              have hwf := wellFormed_run events k (List.getElem?_mem hk)
              obtain ⟨n, _, hn⟩ := remove_of_slot hwf (by simpa using hslot)
              refine ⟨pid, output, n, ?_, ?_⟩
              · rw [hc.1, hc.2]
              · rw [commands_eq_kinds, List.getElem?_map, hk]
                simp only [Option.map_some', hn, removeCommand]
          · simp at h
        · simp at h
    · rintro ⟨pid, output, n, rfl, hcmd⟩
      obtain ⟨k, hk, hk2⟩ := kinds_getElem?_of_commands _ pid _ hcmd
      have hwf := wellFormed_run events k (List.getElem?_mem hk)
      have hs := (slot_of_remove hwf n hk2).1
      have hslot : slotOf (run init events) pid = some .onUninstallFinished := by
        rw [slotOf_eq_kinds, hk]
        simpa using hs
      simp [spawned, hslot, autoRemoveCommand]
  refine ⟨key e, ?_, ?_⟩
  · intro pid exitCode exitStatus output hnot hmem
    obtain ⟨pid2, output2, n, he, _⟩ := (key _).1 hmem
    injection he with _ h2 h3 _
    exact hnot ⟨h3, h2⟩
  · intro pid error
    rw [launched_deliver]
    rfl

/-- C10. The three creation sites give the program and a list of arguments in
which the caller's string is one element, unchanged: `dpkg` with `-S content`,
`pkexec` with `apt remove --purge -y packageName`, `pkexec` with
`apt autoremove -y`; a request passes its content as it is to `dpkg`; and every
command an event launches, from any state, has one of these three shapes, so its
number of arguments is 2, 5 or 3 whatever the strings are. -/
theorem C10_commands_are_argument_vectors :
    (∀ (s : State) (content : String),
      launched s (getPackageNameFromFile s content) = [("dpkg", ["-S", content])]) ∧
    (∀ (s : State) (packageName : String),
      launched s (startUninstall s packageName)
        = [("pkexec", ["apt", "remove", "--purge", "-y", packageName])]) ∧
    (∀ s : State, launched s (runAutoRemove s) = [("pkexec", ["apt", "autoremove", "-y"])]) ∧
    (∀ (s : State) (content : String),
      launched s (deliver s (.uninstall content)) = [("dpkg", ["-S", content])]) ∧
    (∀ (s : State) (e : Event) (cmd : String × List String), cmd ∈ launched s (deliver s e) →
      (∃ content, cmd = ("dpkg", ["-S", content])) ∨
      (∃ packageName, cmd = ("pkexec", ["apt", "remove", "--purge", "-y", packageName])) ∨
      cmd = ("pkexec", ["apt", "autoremove", "-y"])) := by
  refine ⟨?_, ?_, ?_, ?_, ?_⟩
  · intro s content
    rw [launched_of_kinds s _ _ (kinds_getPackageNameFromFile s content)]
    rfl
  · intro s packageName
    rw [launched_of_kinds s _ _ (kinds_startUninstall s packageName)]
    rfl
  · intro s
    rw [launched_of_kinds s _ _ (kinds_runAutoRemove s)]
    rfl
  · intro s content
    rw [launched_deliver]
    rfl
  · intro s e cmd hmem
    rw [launched_deliver, List.mem_map] at hmem
    obtain ⟨k, hk, rfl⟩ := hmem
    rcases wellFormed_spawned s e k hk with ⟨c, rfl⟩ | ⟨n, _, rfl⟩ | rfl
    · exact Or.inl ⟨c, rfl⟩
    · exact Or.inr (Or.inl ⟨n, rfl⟩)
    · exact Or.inr (Or.inr rfl)

/-- C10 at a request whose content has spaces and shell metacharacters, and at
the command launched when its resolution prints a name. -/
theorem C10_witness :
    launched init (deliver init (.uninstall "/tmp/a b; rm -rf $HOME"))
      = [("dpkg", ["-S", "/tmp/a b; rm -rf $HOME"])] ∧
    ((∃ content, ("pkexec", ["apt", "remove", "--purge", "-y", "foopkg"]) = ("dpkg", ["-S", content])) ∨
      (∃ packageName, ("pkexec", ["apt", "remove", "--purge", "-y", "foopkg"])
        = ("pkexec", ["apt", "remove", "--purge", "-y", packageName])) ∨
      ("pkexec", ["apt", "remove", "--purge", "-y", "foopkg"])
        = ("pkexec", ["apt", "autoremove", "-y"])) :=
  ⟨C10_commands_are_argument_vectors.2.2.2.1 init "/tmp/a b; rm -rf $HOME",
    C10_commands_are_argument_vectors.2.2.2.2 stageResolvingName
      (.finished 0 0 .NormalExit "foopkg: /usr/bin/foo")
      ("pkexec", ["apt", "remove", "--purge", "-y", "foopkg"]) (by decide)⟩

/-- C4 in stage Removing: the removal exiting normally with code 0 launches
autoremove; the removal exiting with code 1 does not. -/
theorem C4_witness :
    ("pkexec", ["apt", "autoremove", "-y"])
        ∈ launched stageRemoving (deliver stageRemoving (.finished 1 0 .NormalExit "")) ∧
    ("pkexec", ["apt", "autoremove", "-y"])
        ∉ launched stageRemoving (deliver stageRemoving (.finished 1 1 .NormalExit "")) :=
  ⟨(C4_autoremove_only_after_successful_removal
      [.uninstall "/usr/bin/foo", .finished 0 0 .NormalExit "foopkg: /usr/bin/foo"]
      (.finished 1 0 .NormalExit "")).1.2 ⟨1, "", "foopkg", rfl, by decide⟩,
    (C4_autoremove_only_after_successful_removal
      [.uninstall "/usr/bin/foo", .finished 0 0 .NormalExit "foopkg: /usr/bin/foo"]
      (.uninstall "")).2.1 1 1 .NormalExit "" (by decide)⟩

/-! ### Requests -/

theorem children_uninstall (s : State) (content : String) :
    ∃ p, (deliver s (.uninstall content)).children = s.children ++ [p] :=
  ⟨_, rfl⟩

theorem slotOf_uninstall (s : State) (content : String) (pid : Nat)
    (h : pid < s.children.length) :
    slotOf (deliver s (.uninstall content)) pid = slotOf s pid := by
  obtain ⟨p, hp⟩ := children_uninstall s content
  unfold slotOf
  rw [hp, List.getElem?_append_left h]

theorem spawned_uninstall (s : State) (content : String) (pid : Nat)
    (h : pid < s.children.length) (exitCode : Int) (exitStatus : ExitStatus) (output : String) :
    spawned (deliver s (.uninstall content)) (.finished pid exitCode exitStatus output)
      = spawned s (.finished pid exitCode exitStatus output) := by
  simp only [spawned, slotOf_uninstall s content pid h]

theorem notified_uninstall (s : State) (content : String) (pid : Nat)
    (h : pid < s.children.length) (exitCode : Int) (exitStatus : ExitStatus) (output : String) :
    notified (deliver s (.uninstall content)) (.finished pid exitCode exitStatus output)
      = notified s (.finished pid exitCode exitStatus output) := by
  simp only [notified, slotOf_uninstall s content pid h]

theorem notified_uninstall_error (s : State) (content : String) (pid : Nat)
    (h : pid < s.children.length) (error : ProcessError) :
    notified (deliver s (.uninstall content)) (.errorOccurred pid error)
      = notified s (.errorOccurred pid error) := by
  obtain ⟨p, hp⟩ := children_uninstall s content
  simp only [notified, hp, List.getElem?_append_left h]

/-- C5 as stated fails: a second request in stage ResolvingName, Removing or
CleaningDependencies is not rejected; it launches a `dpkg -S` process of its
own. -/
theorem C5_counterexample :
    launched stageResolvingName (deliver stageResolvingName (.uninstall "/usr/bin/bar"))
      = [("dpkg", ["-S", "/usr/bin/bar"])] ∧
    launched stageRemoving (deliver stageRemoving (.uninstall "/usr/bin/bar"))
      = [("dpkg", ["-S", "/usr/bin/bar"])] ∧
    launched stageCleaningDependencies
        (deliver stageCleaningDependencies (.uninstall "/usr/bin/bar"))
      = [("dpkg", ["-S", "/usr/bin/bar"])] := by
  decide

/-- C5, amended. A request made in any state, also while an operation is in
flight, launches one `dpkg -S content` process. The request leaves
`m_currentProcess`, the notifications and the processes created before unchanged,
and the next signal of a process created before launches the same commands and
requests the same notifications as it would without the request. -/
theorem C5_request_in_flight_starts_resolution (s : State) (content : String) :
    launched s (deliver s (.uninstall content)) = [("dpkg", ["-S", content])] ∧
    (deliver s (.uninstall content)).m_currentProcess = s.m_currentProcess ∧
    (deliver s (.uninstall content)).notifications = s.notifications ∧
    (deliver s (.uninstall content)).children.take s.children.length = s.children ∧
    (∀ pid exitCode exitStatus output, pid < s.children.length →
      launched (deliver s (.uninstall content))
          (deliver (deliver s (.uninstall content)) (.finished pid exitCode exitStatus output))
        = launched s (deliver s (.finished pid exitCode exitStatus output)) ∧
      (deliver (deliver s (.uninstall content))
          (.finished pid exitCode exitStatus output)).notifications
        = (deliver s (.finished pid exitCode exitStatus output)).notifications) ∧
    (∀ pid error, pid < s.children.length →
      launched (deliver s (.uninstall content))
          (deliver (deliver s (.uninstall content)) (.errorOccurred pid error))
        = launched s (deliver s (.errorOccurred pid error)) ∧
      (deliver (deliver s (.uninstall content)) (.errorOccurred pid error)).notifications
        = (deliver s (.errorOccurred pid error)).notifications) := by
  have hn : (deliver s (.uninstall content)).notifications = s.notifications := rfl
  refine ⟨?_, rfl, hn, ?_, ?_, ?_⟩
  · rw [launched_deliver]
    rfl
  · obtain ⟨p, hp⟩ := children_uninstall s content
    rw [hp]
    simp
  · intro pid exitCode exitStatus output h
    constructor
    · rw [launched_deliver, launched_deliver, spawned_uninstall s content pid h]
    · rw [notifications_deliver (deliver s (.uninstall content)),
        notified_uninstall s content pid h, hn, notifications_deliver s]
  · intro pid error h
    constructor
    · rw [launched_deliver, launched_deliver]
      rfl
    · rw [notifications_deliver (deliver s (.uninstall content)),
        notified_uninstall_error s content pid h, hn, notifications_deliver s]

/-- C5, amended, at a second request in stage Removing followed by the removal
exiting normally with code 0. -/
theorem C5_witness :
    launched (deliver stageRemoving (.uninstall "/usr/bin/bar"))
        (deliver (deliver stageRemoving (.uninstall "/usr/bin/bar"))
          (.finished 1 0 .NormalExit ""))
      = launched stageRemoving (deliver stageRemoving (.finished 1 0 .NormalExit "")) ∧
    (deliver (deliver stageRemoving (.uninstall "/usr/bin/bar"))
        (.finished 1 0 .NormalExit "")).notifications
      = (deliver stageRemoving (.finished 1 0 .NormalExit "")).notifications :=
  (C5_request_in_flight_starts_resolution stageRemoving "/usr/bin/bar").2.2.2.2.1
    1 0 .NormalExit "" (by decide)

/-- C9 at its failing input, the bare package name `bar`: the resolution is not
skipped. The request launches `dpkg -S bar`, no `pkexec` command, and announces no
uninstallation. What is removed is the package `dpkg -S` names as owner of a file
matching `bar`, here `tzdata`; when that removal exits with code 1 the
notifications are Uninstalling with `tzdata` and Failure with the placeholder
`unknown`, not Failure with `bar`, and autoremove is not run. When `dpkg -S bar`
finds nothing, no removal is launched at all. -/
theorem C9_bare_name_is_resolved_as_file :
    launched init (deliver init (.uninstall "bar")) = [("dpkg", ["-S", "bar"])] ∧
    (deliver init (.uninstall "bar")).notifications = [] ∧
    (deliver init (.uninstall "bar")).m_currentProcess = none ∧
    commands (run init [.uninstall "bar",
        .finished 0 0 .NormalExit "tzdata: /usr/share/zoneinfo/Africa/Zanzibar",
        .finished 1 1 .NormalExit ""])
      = [("dpkg", ["-S", "bar"]),
         ("pkexec", ["apt", "remove", "--purge", "-y", "tzdata"])] ∧
    (run init [.uninstall "bar",
        .finished 0 0 .NormalExit "tzdata: /usr/share/zoneinfo/Africa/Zanzibar",
        .finished 1 1 .NormalExit ""]).notifications
      = [.Uninstalling "tzdata", .Failure "unknown"] ∧
    commands (run init [.uninstall "bar", .finished 0 1 .NormalExit ""])
      = [("dpkg", ["-S", "bar"])] ∧
    (run init [.uninstall "bar", .finished 0 1 .NormalExit ""]).notifications
      = [.Failure ""] := by
  decide

/-- C3 at its failing input: after a removal that exited normally with code 0,
the autoremove process fails to start. `onProcessError` requests Failure and no
Success is requested. When the autoremove process crashes, Qt emits
`errorOccurred(Crashed)` and then `finished` with `CrashExit`: Failure is
requested, then Success. -/
theorem C3_autoremove_launch_failure_reports_failure :
    (commands stageCleaningDependencies)[2]? = some ("pkexec", ["apt", "autoremove", "-y"]) ∧
    (deliver stageCleaningDependencies (.errorOccurred 2 .FailedToStart)).notifications
      = [.Uninstalling "foopkg", .Failure "unknown"] ∧
    (run stageCleaningDependencies
        [.errorOccurred 2 .Crashed, .finished 2 0 .CrashExit ""]).notifications
      = [.Uninstalling "foopkg", .Failure "unknown", .Success "unknown"] := by
  decide

/-- C7 at its failing input: `dpkg -S` prints `foopkg: /usr/bin/foo`, removal and
autoremove exit normally with code 0; the notifications are Uninstalling with
`foopkg` and then Success with the placeholder `unknown`, not with `foopkg`. -/
theorem C7_success_names_placeholder :
    (run init scenario1).notifications = [.Uninstalling "foopkg", .Success "unknown"] ∧
    commands (run init scenario1)
      = [("dpkg", ["-S", "/usr/bin/foo"]),
         ("pkexec", ["apt", "remove", "--purge", "-y", "foopkg"]),
         ("pkexec", ["apt", "autoremove", "-y"])] := by
  decide

/-! ### Destruction -/

/-- The body of `~AppManager` does nothing when `m_currentProcess` is null. -/
theorem destructor_of_no_current (s : State) (h : s.m_currentProcess = none) :
    destructor s = s := by
  unfold destructor
  rw [h]

end AppManager
